import Mathlib

/-!
Verification of the nkl ENDF decoding core: a shallow embedding of the
fixed-field float/integer parsers (`src/data/endf/float.rs`,
`src/data/endf/integer.rs`), the column record decoder (`src/data/endf.rs`)
and the record reader (`src/data/endf/read.rs`).

Bytes are modelled as `Nat` (ASCII codes: 32 space, 43 plus, 45 minus,
46 dot, 48-57 digits, 69/101 E/e, 68/100 D/d).  Rust `i64`/`i32`
arithmetic in the parsers is modelled with `Nat`/`Int`: the 11-byte field
bound makes the mantissa accumulation overflow-free (the source relies on
the same bound), and the explicit-exponent accumulator is only ever used
on inputs with at most 9 exponent digits whenever the mantissa is nonzero,
so no wrapping behaviour is observable in any returned value.

`f64` values are modelled as a sign bit plus a nonnegative rational
magnitude (`EndfFloat`).  All floating-point operations performed by the
parser (the `i64 -> f64` cast, multiplication and division by a power of
ten, the `1eK` literals of `POW_10_TABLE`, and the correctly rounding
string-to-float conversion of the Rust standard library used by the
fallback path) are correct roundings of exact rational values, so the
embedding is parameterised by an abstract rounding function
`round : Rat -> Rat`; the only property ever assumed of it is that it
fixes every rational that is exactly representable as an IEEE-754 double
(`DoubleRepresentable`).
-/

deriving instance DecidableEq for Except

namespace Nkl

/-- ASCII digit test, `u8::is_ascii_digit`. -/
def isDigitB (b : Nat) : Bool := decide (48 ≤ b ∧ b ≤ 57)

/-- Exponent separator test: `e`, `E`, `d`, `D` (`float.rs` lines 188-194). -/
def sepByte (b : Nat) : Bool := b == 101 || b == 69 || b == 100 || b == 68

/-- Result of scanning a run of ASCII digits, accumulating into `value`
(the `loop { match iter.peek() ... }` digit loops of `float.rs`). -/
structure DigitScan where
  value : Nat
  count : Nat
  rest : List Nat
deriving DecidableEq

/-- Scan a maximal run of digits starting from accumulator `m`,
mirroring the peek/break digit loops of `parse_endf_float`. -/
def scanDigits : List Nat → Nat → DigitScan
  | [], m => ⟨m, 0, []⟩
  | b :: t, m =>
    if isDigitB b then
      let d := scanDigits t (m * 10 + (b - 48))
      ⟨d.value, d.count + 1, d.rest⟩
    else ⟨m, 0, b :: t⟩

/-- Mantissa scan result: integral part then optional `.` and fractional
part (`float.rs` lines 157-183). -/
structure MantScan where
  mantissa : Nat
  mdigits : Nat
  fdigits : Nat
  rest : List Nat
deriving DecidableEq

/-- Scan the integral part, then the optional fractional part introduced
by a decimal separator (`float.rs` lines 160-183). -/
def scanMant (t : List Nat) : MantScan :=
  let s1 := scanDigits t 0
  match s1.rest with
  | b :: r =>
    if b = 46 then
      let s2 := scanDigits r s1.value
      ⟨s2.value, s1.count + s2.count, s2.count, s2.rest⟩
    else ⟨s1.value, s1.count, 0, b :: r⟩
  | [] => ⟨s1.value, s1.count, 0, []⟩

/-- Explicit exponent scan result (`float.rs` lines 185-221). -/
structure ExpScan where
  negExp : Bool
  exp : Nat
  edigits : Nat
deriving DecidableEq

/-- Scan the exponential part: optional separator `e/E/d/D`, optional
sign (a bare sign also marks an exponent), digits; an exponent marker
followed by no digits is an error, as is any leftover byte
(`float.rs` lines 185-224). -/
def scanExp (t3 : List Nat) : Except Unit ExpScan :=
  let e1 : Bool × List Nat :=
    match t3 with
    | b :: r => if sepByte b then (true, r) else (false, b :: r)
    | [] => (false, [])
  let e2 : Bool × Bool × List Nat :=
    match e1.2 with
    | 45 :: r => (true, true, r)
    | 43 :: r => (true, false, r)
    | l => (e1.1, false, l)
  if e2.1 ∧ e2.2.2 = [] then .error ()
  else
    let s3 := scanDigits e2.2.2 0
    if s3.rest = [] then .ok ⟨e2.2.1, s3.value, s3.count⟩
    else .error ()

/-- Scanned decimal value of a float field: sign, mantissa and the
combined decimal exponent (fractional-part shift plus signed explicit
exponent), together with the digit counts of the mantissa and the
explicit exponent. -/
structure ScanNum where
  negative : Bool
  mantissa : Nat
  exponent : Int
  mdigits : Nat
  edigits : Nat
deriving DecidableEq

/-- Scan outcome: `zero` for the early `Ok(0.)` returns (blank field,
sign-only field), `num` for a fully scanned field. -/
inductive ScanOut where
  | zero : ScanOut
  | num : ScanNum → ScanOut
deriving DecidableEq

/-- The phase of `parse_endf_float` after sign extraction: a sign-only
field is the early `Ok(0.)` return of `float.rs` line 155, then
mantissa and exponent are scanned and combined. -/
def scanAfterSign (neg : Bool) (t1 : List Nat) : Except Unit ScanOut :=
  if t1 = [] then .ok .zero
  else
    let m := scanMant t1
    match scanExp m.rest with
    | .error _ => .error ()
    | .ok e =>
      .ok (.num ⟨neg, m.mantissa,
        (if e.negExp then -(m.fdigits : Int) - e.exp else -(m.fdigits : Int) + e.exp),
        m.mdigits, e.edigits⟩)

/-- The byte-level scanning phase of `parse_endf_float` (`float.rs`
lines 128-235): length checks, space stripping, sign, mantissa,
exponent; errors exactly where the source returns
`Err(ParseEndfFloatError)`. -/
def scanEndfFloat (s : List Nat) : Except Unit ScanOut :=
  if s = [] then .error ()
  else if 11 < s.length then .error ()
  else
    match s.filter (fun b => b != 32) with
    | [] => .ok .zero
    | b :: t =>
      if b = 45 then scanAfterSign true t
      else if b = 43 then scanAfterSign false t
      else scanAfterSign false (b :: t)

/-- A rational exactly representable as an IEEE-754 binary64 value:
`m * 2^e` with `|m| < 2^53` and `e` in the double exponent range. -/
def DoubleRepresentable (q : ℚ) : Prop :=
  ∃ m e : ℤ, m.natAbs < 2 ^ 53 ∧ -1074 ≤ e ∧ e ≤ 971 ∧ q = (m : ℚ) * (2 : ℚ) ^ e

/-- Model of an `f64` value produced by the parser: sign bit and
nonnegative magnitude (needed to distinguish `0.0` from `-0.0`). -/
structure EndfFloat where
  sign : Bool
  mag : ℚ
deriving DecidableEq

/-- The `POW_10_TABLE` constant (`float.rs` lines 4-9): entry `k` is the
`f64` denoted by the literal `1eK`, i.e. the correctly rounded double
nearest to the exact rational `10^k`. -/
def POW_10_TABLE (round : ℚ → ℚ) (k : Nat) : ℚ := round ((10 : ℚ) ^ k)

/-- `parse_endf_float` (`float.rs` lines 66-257).  After the scan:
zero-mantissa fields fast-return positive zero before the sign is
applied; otherwise the value is computed either on the direct
power-of-ten-table path (`|exponent| <= 22`: `mantissa as f64` cast,
then one multiplication or division by the table entry) or on the
string-fallback path (`format!` then the standard library's correctly
rounding `str::parse::<f64>`), and the sign is applied last. -/
def parse_endf_float (round : ℚ → ℚ) (s : List Nat) : Except Unit EndfFloat :=
  match scanEndfFloat s with
  | .error _ => .error ()
  | .ok .zero => .ok ⟨false, 0⟩
  | .ok (.num n) =>
    if n.mantissa = 0 then .ok ⟨false, 0⟩
    else
      let value :=
        if 22 < n.exponent.natAbs then
          round ((n.mantissa : ℚ) * (10 : ℚ) ^ n.exponent)
        else if n.exponent < 0 then
          round (round ((n.mantissa : ℕ) : ℚ) / POW_10_TABLE round n.exponent.natAbs)
        else
          round (round ((n.mantissa : ℕ) : ℚ) * POW_10_TABLE round n.exponent.natAbs)
      .ok ⟨n.negative, value⟩

/-- Digit run consumed to exhaustion: any non-digit byte is an error
(the `for byte in iter` loop of `integer.rs` lines 78-86). -/
def digitsVal : List Nat → Nat → Except Unit Nat
  | [], acc => .ok acc
  | b :: t, acc => if isDigitB b then digitsVal t (acc * 10 + (b - 48)) else .error ()

/-- `parse_endf_integer` (`integer.rs` lines 41-92): empty and too-long
slices are errors, all-blank is `0`, optional sign (sign-only is an
error), then digits only; sign applied last. -/
def parse_endf_integer (s : List Nat) : Except Unit Int :=
  if s = [] then .error ()
  else if 11 < s.length then .error ()
  else
    match s.filter (fun b => b != 32) with
    | [] => .ok 0
    | b :: t =>
      let p : Bool × List Nat :=
        if b = 45 then (true, t) else if b = 43 then (false, t) else (false, b :: t)
      if p.2 = [] then .error ()
      else
        match digitsVal p.2 0 with
        | .error _ => .error ()
        | .ok v => .ok (if p.1 then -(v : Int) else (v : Int))

/-- Opaque-payload model of `std::io::Error`. -/
structure IOErr where
  code : Nat
deriving DecidableEq

/-- `EndfError` (`error.rs` lines 5-17); the constructor `ioFailure`
models the `IO(std::io::Error)` wrapping variant. -/
inductive EndfError where
  | data : EndfError
  | encoding : EndfError
  | endOfFile : EndfError
  | format : EndfError
  | ioFailure : IOErr → EndfError
deriving DecidableEq

/-- Rust `slice.get(start..stop)`: `some` of the sub-slice when the
range lies inside the slice, `none` otherwise. -/
def sliceGet (s : List Nat) (start stop : Nat) : Option (List Nat) :=
  if start ≤ stop ∧ stop ≤ s.length then some ((s.drop start).take (stop - start))
  else none

/-- `parse_integer` (`endf.rs` lines 81-93): 11-byte window of 1-based
`column`, short record is a format error, parse failure a data error.
The source asserts `1 <= column <= 6`; every call site in the claims
uses an in-range constant. -/
def parse_integer (record : List Nat) (column : Nat) : Except EndfError Int :=
  match sliceGet record ((column - 1) * 11) (column * 11) with
  | some sl =>
    match parse_endf_integer sl with
    | .ok v => .ok v
    | .error _ => .error .data
  | none => .error .format

/-- `parse_float` (`endf.rs` lines 119-131). -/
def parse_float (round : ℚ → ℚ) (record : List Nat) (column : Nat) :
    Except EndfError EndfFloat :=
  match sliceGet record ((column - 1) * 11) (column * 11) with
  | some sl =>
    match parse_endf_float round sl with
    | .ok v => .ok v
    | .error _ => .error .data
  | none => .error .format

/-- ENDF CONT record (`records.rs`). -/
structure Cont where
  c1 : EndfFloat
  c2 : EndfFloat
  l1 : Int
  l2 : Int
  n1 : Int
  n2 : Int
deriving DecidableEq

/-- `parse_cont` (`endf.rs` lines 171-180). -/
def parse_cont (round : ℚ → ℚ) (record : List Nat) : Except EndfError Cont :=
  match parse_float round record 1 with
  | .error e => .error e
  | .ok c1 =>
    match parse_float round record 2 with
    | .error e => .error e
    | .ok c2 =>
      match parse_integer record 3 with
      | .error e => .error e
      | .ok l1 =>
        match parse_integer record 4 with
        | .error e => .error e
        | .ok l2 =>
          match parse_integer record 5 with
          | .error e => .error e
          | .ok n1 =>
            match parse_integer record 6 with
            | .error e => .error e
            | .ok n2 => .ok ⟨c1, c2, l1, l2, n1, n2⟩

/-- `parse_material` (`endf.rs` lines 284-294): MAT in bytes 66-70.
The `as i32` cast is the identity because the slice holds at most
4 digits. -/
def parse_material (record : List Nat) : Except EndfError Int :=
  match sliceGet record 66 70 with
  | some sl =>
    match parse_endf_integer sl with
    | .ok v => .ok v
    | .error _ => .error .data
  | none => .error .format

/-- `parse_file` (`endf.rs` lines 320-329): MF in bytes 70-72; the
`try_into::<u32>()` fails on a negative (or `2^32`-exceeding) value. -/
def parse_file (record : List Nat) : Except EndfError Int :=
  match sliceGet record 70 72 with
  | some sl =>
    match parse_endf_integer sl with
    | .ok v => if v < 0 ∨ 2 ^ 32 ≤ v then .error .data else .ok v
    | .error _ => .error .data
  | none => .error .format

/-- `parse_section` (`endf.rs` lines 355-364): MT in bytes 72-75. -/
def parse_section (record : List Nat) : Except EndfError Int :=
  match sliceGet record 72 75 with
  | some sl =>
    match parse_endf_integer sl with
    | .ok v => if v < 0 ∨ 2 ^ 32 ≤ v then .error .data else .ok v
    | .error _ => .error .data
  | none => .error .format

/-- `parse_sequence` (`endf.rs` lines 391-403): optional NS in bytes
75-80; a record shorter than 80 bytes yields `none`, not an error. -/
def parse_sequence (record : List Nat) : Except EndfError (Option Int) :=
  match sliceGet record 75 80 with
  | some sl =>
    match parse_endf_integer sl with
    | .ok v => if v < 0 ∨ 2 ^ 32 ≤ v then .error .data else .ok (some v)
    | .error _ => .error .data
  | none => .ok none

/-- `parse_control_numbers` (`endf.rs` lines 252-259). -/
def parse_control_numbers (record : List Nat) :
    Except EndfError (Int × Int × Int × Option Int) :=
  match parse_material record with
  | .error e => .error e
  | .ok mat =>
    match parse_file record with
    | .error e => .error e
    | .ok mf =>
      match parse_section record with
      | .error e => .error e
      | .ok mt =>
        match parse_sequence record with
        | .error e => .error e
        | .ok ns => .ok (mat, mf, mt, ns)

/-- The underlying `BufRead` stream, as the sequence of results of
successive `read_until(b'\n', ..)` calls: each element is either an I/O
failure or the bytes read (newline included when present).  Once the
list is exhausted every further pull yields zero bytes, which is how a
`BufRead` reports end of stream. -/
abbrev Source := List (Except IOErr (List Nat))

/-- Result of a reader operation.  `panic` marks the Rust panics caused
by unchecked slice indexing (`buf[..66]`, `&buf[ptr..ptr + ndigit + 1]`)
and by `assert!` violations; the other two constructors are the `Err`
and `Ok` of the returned `Result`. -/
inductive Outcome (α : Type) where
  | panic : Outcome α
  | fail : EndfError → Outcome α
  | ok : α → Outcome α
deriving DecidableEq

/-- `EndfReader::read_line` (`read.rs` lines 50-57): zero bytes read is
`EndfError::EndOfFile`, a transport failure is wrapped, otherwise the
raw bytes are returned. -/
def read_line (src : Source) : Except EndfError (List Nat) :=
  match src with
  | [] => .error .endOfFile
  | .error e :: _ => .error (.ioFailure e)
  | .ok buf :: _ => if buf = [] then .error .endOfFile else .ok buf

/-- `EndfReader::read_cont` (`read.rs` lines 80-95): one line, six
fixed fields. -/
def read_cont (round : ℚ → ℚ) (src : Source) : Except EndfError Cont :=
  match src with
  | [] => .error .endOfFile
  | .error e :: _ => .error (.ioFailure e)
  | .ok buf :: _ =>
    if buf = [] then .error .endOfFile else parse_cont round buf

/-- ENDF INTG record (`records.rs`). -/
structure Intg where
  ii : Int
  jj : Int
  kij : List Int
deriving DecidableEq

/-- The value loop of `read_intg` (`read.rs` lines 142-155): from byte
offset `ptr`, fields of width `nd + 1` until fewer than `nd + 1` bytes
remain before offset 66.  The Rust loop indexes `buf[ptr..ptr + nd + 1]`
without a bounds check, so a too-short line is a `panic`.  The `fuel`
argument only makes the recursion structural: each iteration advances
`ptr` by `nd + 1 ≥ 1`, so starting with fuel 66 the guard
`66 < ptr + (nd + 1)` always fires before the fuel runs out and the
fuel-exhausted arm is unreachable. -/
def intgLoopF (buf : List Nat) (nd : Nat) : Nat → Nat → Outcome (List Int)
  | 0, _ => .ok []
  | fuel + 1, ptr =>
    if 66 < ptr + (nd + 1) then .ok []
    else if buf.length < ptr + (nd + 1) then .panic
    else
      match parse_endf_integer ((buf.drop ptr).take (nd + 1)) with
      | .error _ => .fail .data
      | .ok v =>
        match intgLoopF buf nd fuel (ptr + (nd + 1)) with
        | .ok vs => .ok (v :: vs)
        | .fail e => .fail e
        | .panic => .panic

/-- `EndfReader::read_intg` (`read.rs` lines 120-159): asserts
`2 <= ndigit <= 6`, reads one line, decodes the two 5-byte header
fields with checked slicing, then the value run starting at offset 11
(`ndigit <= 5`) or 10 (`ndigit = 6`). -/
def read_intg (nd : Nat) (src : Source) : Outcome Intg :=
  if nd < 2 ∨ 6 < nd then .panic
  else
    match src with
    | [] => .fail .endOfFile
    | .error e :: _ => .fail (.ioFailure e)
    | .ok buf :: _ =>
      if buf = [] then .fail .endOfFile
      else
      match sliceGet buf 0 5 with
      | none => .fail .format
      | some s1 =>
        match parse_endf_integer s1 with
        | .error _ => .fail .data
        | .ok ii =>
          match sliceGet buf 5 10 with
          | none => .fail .format
          | some s2 =>
            match parse_endf_integer s2 with
            | .error _ => .fail .data
            | .ok jj =>
              match intgLoopF buf nd 66 (if nd ≤ 5 then 11 else 10) with
              | .panic => .panic
              | .fail e => .fail e
              | .ok kij => .ok ⟨ii, jj, kij⟩

/-- One step of the UTF-8 validation automaton: at `need = 0` a lead
byte selects how many continuation bytes follow and the admissible
range of the first one; otherwise the byte must lie in `[lo, hi]`. -/
def utf8Go : List Nat → Nat → Nat → Nat → Bool
  | [], need, _, _ => need == 0
  | b :: t, 0, _, _ =>
    if b ≤ 127 then utf8Go t 0 0 0
    else if 194 ≤ b ∧ b ≤ 223 then utf8Go t 1 128 191
    else if b = 224 then utf8Go t 2 160 191
    else if 225 ≤ b ∧ b ≤ 236 then utf8Go t 2 128 191
    else if b = 237 then utf8Go t 2 128 159
    else if 238 ≤ b ∧ b ≤ 239 then utf8Go t 2 128 191
    else if b = 240 then utf8Go t 3 144 191
    else if 241 ≤ b ∧ b ≤ 243 then utf8Go t 3 128 191
    else if b = 244 then utf8Go t 3 128 143
    else false
  | b :: t, need + 1, lo, hi =>
    if lo ≤ b ∧ b ≤ hi then utf8Go t need 128 191 else false

/-- UTF-8 validity, the check performed by `String::from_utf8`. -/
def utf8Valid (l : List Nat) : Bool := utf8Go l 0 0 0

/-- ENDF TEXT record (`records.rs`); `hl` holds the bytes of the
66-column string. -/
structure Text where
  hl : List Nat
deriving DecidableEq

/-- `EndfReader::read_text` (`read.rs` lines 403-416): reads one line
and takes `buf[..66]` — an unchecked slice, hence a `panic` when the
line is shorter than 66 bytes — then validates it as UTF-8
(`EndfError::Data` on failure). -/
def read_text (src : Source) : Outcome Text :=
  match src with
  | [] => .fail .endOfFile
  | .error e :: _ => .fail (.ioFailure e)
  | .ok buf :: _ =>
    if buf = [] then .fail .endOfFile
    else if buf.length < 66 then .panic
    else
      let bytes := buf.take 66
      if utf8Valid bytes then .ok ⟨bytes⟩ else .fail .data

/-- ENDF LIST record (`records.rs`); named `ListRec` because `List` is
taken in Lean. -/
structure ListRec where
  c1 : EndfFloat
  c2 : EndfFloat
  l1 : Int
  l2 : Int
  npl : Nat
  n2 : Int
  b : List EndfFloat
deriving DecidableEq

/-- The `for col in 0..6` body of a LIST data line (`read.rs` lines
205-211): up to `rem` further columns starting at 0-based column `col`,
stopping early once `need` values have been taken. -/
def lineFloats (round : ℚ → ℚ) (buf : List Nat) : Nat → Nat → Nat →
    Except EndfError (List EndfFloat)
  | 0, _, _ => .ok []
  | rem + 1, col, need =>
    if need = 0 then .ok []
    else
      match parse_float round buf (col + 1) with
      | .error e => .error e
      | .ok v =>
        match lineFloats round buf rem (col + 1) (need - 1) with
        | .error e => .error e
        | .ok vs => .ok (v :: vs)

/-- The `while b.len() < npl` line loop of `read_list` (`read.rs`
lines 199-214): each iteration pulls one line (zero bytes is
`EndOfFile`) and takes up to six floats from it. -/
def listLoop (round : ℚ → ℚ) : Source → Nat → Except EndfError (List EndfFloat)
  | _, 0 => .ok []
  | [], _ + 1 => .error .endOfFile
  | .error e :: _, _ + 1 => .error (.ioFailure e)
  | .ok buf :: rest, need + 1 =>
    if buf = [] then .error .endOfFile
    else
    match lineFloats round buf 6 0 (need + 1) with
    | .error e => .error e
    | .ok vs =>
      match listLoop round rest (need + 1 - vs.length) with
      | .error e => .error e
      | .ok tail => .ok (vs ++ tail)

/-- `EndfReader::read_list` (`read.rs` lines 182-218): header line with
six fields, `npl` must be convertible to `usize` (nonnegative), then
data lines until `npl` floats are collected. -/
def read_list (round : ℚ → ℚ) (src : Source) : Except EndfError ListRec :=
  match src with
  | [] => .error .endOfFile
  | .error e :: _ => .error (.ioFailure e)
  | .ok buf :: rest =>
    if buf = [] then .error .endOfFile
    else
    match parse_float round buf 1 with
    | .error e => .error e
    | .ok c1 =>
      match parse_float round buf 2 with
      | .error e => .error e
      | .ok c2 =>
        match parse_integer buf 3 with
        | .error e => .error e
        | .ok l1 =>
          match parse_integer buf 4 with
          | .error e => .error e
          | .ok l2 =>
            match parse_integer buf 5 with
            | .error e => .error e
            | .ok npl =>
              match parse_integer buf 6 with
              | .error e => .error e
              | .ok n2 =>
                if npl < 0 then .error .data
                else
                  match listLoop round rest npl.toNat with
                  | .error e => .error e
                  | .ok b => .ok ⟨c1, c2, l1, l2, npl.toNat, n2, b⟩

/-- The `for col in 0..3` body of an interpolation-region line
(`read.rs` lines 268-283): `(nbt, scheme)` integer pairs with the
`u32` / `usize` conversion checks. -/
def linePairsInt (buf : List Nat) : Nat → Nat → Nat →
    Except EndfError (List (Int × Int))
  | 0, _, _ => .ok []
  | rem + 1, col, need =>
    if need = 0 then .ok []
    else
      match parse_integer buf (2 * col + 1) with
      | .error e => .error e
      | .ok nbt =>
        if nbt < 0 ∨ 2 ^ 32 ≤ nbt then .error .data
        else
          match parse_integer buf (2 * col + 2) with
          | .error e => .error e
          | .ok scheme =>
            if scheme < 0 then .error .data
            else
              match linePairsInt buf rem (col + 1) (need - 1) with
              | .error e => .error e
              | .ok vs => .ok ((nbt, scheme) :: vs)

/-- The `while int.len() < nr` loop of `read_tab1`/`read_tab2`,
returning the unconsumed part of the stream as well. -/
def intPairsLoop : Source → Nat → Except EndfError (List (Int × Int) × Source)
  | src, 0 => .ok ([], src)
  | [], _ + 1 => .error .endOfFile
  | .error e :: _, _ + 1 => .error (.ioFailure e)
  | .ok buf :: rest, need + 1 =>
    if buf = [] then .error .endOfFile
    else
    match linePairsInt buf 3 0 (need + 1) with
    | .error e => .error e
    | .ok vs =>
      match intPairsLoop rest (need + 1 - vs.length) with
      | .error e => .error e
      | .ok (tail, src2) => .ok (vs ++ tail, src2)

/-- The `for col in 0..3` body of a TAB1 data line (`read.rs` lines
294-301): `(x, y)` float pairs. -/
def linePairsFloat (round : ℚ → ℚ) (buf : List Nat) : Nat → Nat → Nat →
    Except EndfError (List (EndfFloat × EndfFloat))
  | 0, _, _ => .ok []
  | rem + 1, col, need =>
    if need = 0 then .ok []
    else
      match parse_float round buf (2 * col + 1) with
      | .error e => .error e
      | .ok x =>
        match parse_float round buf (2 * col + 2) with
        | .error e => .error e
        | .ok y =>
          match linePairsFloat round buf rem (col + 1) (need - 1) with
          | .error e => .error e
          | .ok vs => .ok ((x, y) :: vs)

/-- The `while tab.len() < np` loop of `read_tab1`. -/
def floatPairsLoop (round : ℚ → ℚ) : Source → Nat →
    Except EndfError (List (EndfFloat × EndfFloat))
  | _, 0 => .ok []
  | [], _ + 1 => .error .endOfFile
  | .error e :: _, _ + 1 => .error (.ioFailure e)
  | .ok buf :: rest, need + 1 =>
    if buf = [] then .error .endOfFile
    else
    match linePairsFloat round buf 3 0 (need + 1) with
    | .error e => .error e
    | .ok vs =>
      match floatPairsLoop round rest (need + 1 - vs.length) with
      | .error e => .error e
      | .ok tail => .ok (vs ++ tail)

/-- ENDF TAB1 record (`records.rs`). -/
structure Tab1 where
  c1 : EndfFloat
  c2 : EndfFloat
  l1 : Int
  l2 : Int
  nr : Nat
  np : Nat
  int : List (Int × Int)
  tab : List (EndfFloat × EndfFloat)
deriving DecidableEq

/-- `EndfReader::read_tab1` (`read.rs` lines 241-308). -/
def read_tab1 (round : ℚ → ℚ) (src : Source) : Except EndfError Tab1 :=
  match src with
  | [] => .error .endOfFile
  | .error e :: _ => .error (.ioFailure e)
  | .ok buf :: rest =>
    if buf = [] then .error .endOfFile
    else
    match parse_float round buf 1 with
    | .error e => .error e
    | .ok c1 =>
      match parse_float round buf 2 with
      | .error e => .error e
      | .ok c2 =>
        match parse_integer buf 3 with
        | .error e => .error e
        | .ok l1 =>
          match parse_integer buf 4 with
          | .error e => .error e
          | .ok l2 =>
            match parse_integer buf 5 with
            | .error e => .error e
            | .ok nr =>
              match parse_integer buf 6 with
              | .error e => .error e
              | .ok np =>
                if nr < 0 then .error .data
                else if np < 0 then .error .data
                else
                  match intPairsLoop rest nr.toNat with
                  | .error e => .error e
                  | .ok (int, src2) =>
                    match floatPairsLoop round src2 np.toNat with
                    | .error e => .error e
                    | .ok tab => .ok ⟨c1, c2, l1, l2, nr.toNat, np.toNat, int, tab⟩

/-- ENDF TAB2 record (`records.rs`). -/
structure Tab2 where
  c1 : EndfFloat
  c2 : EndfFloat
  l1 : Int
  l2 : Int
  nr : Nat
  nz : Nat
  int : List (Int × Int)
deriving DecidableEq

/-- `EndfReader::read_tab2` (`read.rs` lines 331-380). -/
def read_tab2 (round : ℚ → ℚ) (src : Source) : Except EndfError Tab2 :=
  match src with
  | [] => .error .endOfFile
  | .error e :: _ => .error (.ioFailure e)
  | .ok buf :: rest =>
    if buf = [] then .error .endOfFile
    else
    match parse_float round buf 1 with
    | .error e => .error e
    | .ok c1 =>
      match parse_float round buf 2 with
      | .error e => .error e
      | .ok c2 =>
        match parse_integer buf 3 with
        | .error e => .error e
        | .ok l1 =>
          match parse_integer buf 4 with
          | .error e => .error e
          | .ok l2 =>
            match parse_integer buf 5 with
            | .error e => .error e
            | .ok nr =>
              match parse_integer buf 6 with
              | .error e => .error e
              | .ok nz =>
                if nr < 0 then .error .data
                else if nz < 0 then .error .data
                else
                  match intPairsLoop rest nr.toNat with
                  | .error e => .error e
                  | .ok (int, _) => .ok ⟨c1, c2, l1, l2, nr.toNat, nz.toNat, int⟩

/-- Bytes of an ASCII string literal. -/
def strBytes (s : String) : List Nat := s.toList.map (fun c => c.toNat)

/-- `mapM` over `Except` written as plain recursion. -/
def mapME {α β : Type} (f : α → Except Unit β) : List α → Except Unit (List β)
  | [] => .ok []
  | a :: t =>
    match f a with
    | .error e => .error e
    | .ok b =>
      match mapME f t with
      | .error e => .error e
      | .ok bs => .ok (b :: bs)

/-- Byte offsets of the INTG data values as the spec describes them:
fields of width `nd + 1` packed left to right from the starting offset,
as many as fit before offset 66. -/
def intgOffsets (nd ptr : Nat) : List Nat :=
  (List.range ((66 - ptr) / (nd + 1))).map (fun k => ptr + k * (nd + 1))

/-- INTG record layout as claimed by the spec: two 5-byte integer
header fields at the start of the line, then data values each `nd + 1`
bytes wide starting at offset 11 (`nd ≤ 5`) or 10 (`nd = 6`), packed
until fewer than `nd + 1` bytes remain before offset 66. -/
def intgSpec (nd : Nat) (buf : List Nat) : Except Unit Intg :=
  match parse_endf_integer (buf.take 5) with
  | .error _ => .error ()
  | .ok ii =>
    match parse_endf_integer ((buf.drop 5).take 5) with
    | .error _ => .error ()
    | .ok jj =>
      match mapME (fun p => parse_endf_integer ((buf.drop p).take (nd + 1)))
          (intgOffsets nd (if nd ≤ 5 then 11 else 10)) with
      | .error _ => .error ()
      | .ok kij => .ok ⟨ii, jj, kij⟩

/-- Interpret a field-level parse result as a reader outcome: a parse
failure surfaces as `EndfError::Data`. -/
def excToOutcome {α : Type} : Except Unit α → Outcome α
  | .ok a => .ok a
  | .error _ => .fail .data

/-- Number of INTG data values per line for each `ndigit`. -/
def intgCount (nd : Nat) : Nat :=
  match nd with
  | 2 => 18
  | 3 => 13
  | 4 => 11
  | 5 => 9
  | 6 => 8
  | _ => 0

/-- The 80-column continuation-record line of the spec scenario. -/
def contLine : List Nat :=
  strBytes (r" 1.23456789-1.23456789          1          2          3          412341212312345")

/-- LIST-scenario header line: blank fields except `npl = 3` in the
fifth 11-byte field. -/
def listHeaderLine : List Nat :=
  List.replicate 44 32 ++ strBytes (r"          3") ++ List.replicate 11 32

/-- LIST-scenario data line: three parseable floats in the first three
11-byte fields, blanks in the remaining three. -/
def listDataLine : List Nat :=
  strBytes (r" 1.00000000 2.00000000 3.00000000") ++ List.replicate 33 32

/-- Every integer of magnitude below `2^53` is exactly representable. -/
lemma representable_int (m : ℤ) (hm : m.natAbs < 2 ^ 53) :
    DoubleRepresentable (m : ℚ) :=
  ⟨m, 0, hm, by norm_num, by norm_num, by simp⟩

/-- Every natural number below `2^53` is exactly representable. -/
lemma representable_nat (k : ℕ) (hk : k < 2 ^ 53) :
    DoubleRepresentable ((k : ℕ) : ℚ) := by
  have := representable_int k (by simpa using hk)
  simpa using this

/-- `10^k = 5^k * 2^k` is exactly representable for `k ≤ 22`, because
`5^22 < 2^53`. -/
lemma representable_pow10 (k : ℕ) (hk : k ≤ 22) :
    DoubleRepresentable ((10 : ℚ) ^ k) := by
  refine ⟨5 ^ k, k, ?_, by omega, by omega, ?_⟩
  · rw [Int.natAbs_pow]
    calc (5 : ℤ).natAbs ^ k ≤ 5 ^ 22 := Nat.pow_le_pow_right (by norm_num) hk
      _ < 2 ^ 53 := by norm_num
  · rw [zpow_natCast]
    push_cast
    rw [← mul_pow]
    norm_num

/-- On any field whose scan succeeded with a mantissa of at most 11
digits, `parse_endf_float` returns the correctly rounded value of the
exact rational `mantissa * 10^exponent` (with positive zero when the
mantissa is zero): on the direct path the mantissa cast and the table
entry are exact, so the single multiplication or division rounds the
exact value; on the fallback path the standard library conversion
rounds the exact value by contract. -/
lemma parse_endf_float_eq_round (round : ℚ → ℚ)
    (hround : ∀ q, DoubleRepresentable q → round q = q)
    (s : List Nat) (n : ScanNum) (hscan : scanEndfFloat s = .ok (.num n))
    (hm : n.mantissa < 10 ^ 11) :
    parse_endf_float round s =
      .ok ⟨if n.mantissa = 0 then false else n.negative,
           round ((n.mantissa : ℚ) * (10 : ℚ) ^ n.exponent)⟩ := by
  have hmr : round ((n.mantissa : ℕ) : ℚ) = ((n.mantissa : ℕ) : ℚ) :=
    hround _ (representable_nat n.mantissa (lt_trans hm (by norm_num)))
  unfold parse_endf_float
  rw [hscan]
  by_cases h0 : n.mantissa = 0
  · simp only [h0, if_pos rfl, if_true]
    have : round (((0 : ℕ) : ℚ) * (10 : ℚ) ^ n.exponent) = 0 := by
      rw [Nat.cast_zero, zero_mul]
      exact hround 0 ⟨0, 0, by norm_num, by norm_num, by norm_num, by simp⟩
    rw [this]
  · simp only [h0, if_false, if_neg h0]
    by_cases h22 : 22 < n.exponent.natAbs
    · simp only [if_pos h22]
    · simp only [if_neg h22]
      have htab : POW_10_TABLE round n.exponent.natAbs =
          (10 : ℚ) ^ n.exponent.natAbs :=
        hround _ (representable_pow10 _ (by omega))
      by_cases hneg : n.exponent < 0
      · simp only [if_pos hneg, htab, hmr]
        have he : n.exponent = -(n.exponent.natAbs : ℤ) := by omega
        have key : (10 : ℚ) ^ n.exponent = ((10 : ℚ) ^ n.exponent.natAbs)⁻¹ := by
          conv_lhs => rw [he]
          rw [zpow_neg, zpow_natCast]
        rw [key, div_eq_mul_inv]
      · simp only [if_neg hneg, htab, hmr]
        have he : n.exponent = (n.exponent.natAbs : ℤ) := by omega
        have key : (10 : ℚ) ^ n.exponent = (10 : ℚ) ^ n.exponent.natAbs := by
          conv_lhs => rw [he]
          rw [zpow_natCast]
        rw [key]

/-- A digit run that consumed no digits leaves the accumulator
unchanged. -/
lemma scanDigits_value_of_count_zero (l : List Nat) (m : Nat)
    (h : (scanDigits l m).count = 0) : (scanDigits l m).value = m := by
  cases l with
  | nil => rfl
  | cons b t =>
    unfold scanDigits at h ⊢
    by_cases hd : isDigitB b
    · simp [hd] at h
    · simp [hd]

/-- A mantissa scan with no digits at all has mantissa zero. -/
lemma scanMant_mantissa_of_mdigits_zero (t : List Nat)
    (h : (scanMant t).mdigits = 0) : (scanMant t).mantissa = 0 := by
  cases hrest : (scanDigits t 0).rest with
  | nil =>
    simp only [scanMant, hrest] at h ⊢
    exact scanDigits_value_of_count_zero _ _ h
  | cons b r =>
    by_cases hb : b = 46
    · subst hb
      simp [scanMant, hrest] at h ⊢
      have h1 : (scanDigits t 0).count = 0 := by omega
      have h2 : (scanDigits r (scanDigits t 0).value).count = 0 := by omega
      rw [scanDigits_value_of_count_zero _ _ h2,
        scanDigits_value_of_count_zero _ _ h1]
    · simp [scanMant, hrest, hb] at h ⊢
      exact scanDigits_value_of_count_zero _ _ h

/-- When the scanned mantissa is zero, `parse_endf_float` takes the
fast return at `float.rs` line 227 and yields positive zero, before
the sign is applied. -/
lemma parse_zero_of_mantissa_zero (round : ℚ → ℚ) (s : List Nat) (n : ScanNum)
    (hscan : scanEndfFloat s = .ok (.num n)) (h0 : n.mantissa = 0) :
    parse_endf_float round s = .ok ⟨false, 0⟩ := by
  unfold parse_endf_float
  rw [hscan]
  simp [h0]

/-- The mantissa and mantissa-digit count of a successful scan are
those of the mantissa-scan phase. -/
lemma scanAfterSign_fields (neg : Bool) (t1 : List Nat) (n : ScanNum)
    (h : scanAfterSign neg t1 = .ok (.num n)) :
    n.mantissa = (scanMant t1).mantissa ∧ n.mdigits = (scanMant t1).mdigits := by
  unfold scanAfterSign at h
  split at h
  · exact absurd h (by simp)
  cases hexp : scanExp (scanMant t1).rest with
  | error u =>
    simp only [hexp] at h
    exact absurd h (by simp)
  | ok e =>
    simp only [hexp] at h
    rw [Except.ok.injEq, ScanOut.num.injEq] at h
    rw [← h]
    exact ⟨rfl, rfl⟩

/-- Every successful number scan factors through `scanAfterSign`. -/
lemma scan_num_afterSign (s : List Nat) (n : ScanNum)
    (hscan : scanEndfFloat s = .ok (.num n)) :
    ∃ neg t1, scanAfterSign neg t1 = .ok (.num n) := by
  unfold scanEndfFloat at hscan
  split at hscan
  · exact absurd hscan (by simp)
  split at hscan
  · exact absurd hscan (by simp)
  split at hscan
  · exact absurd hscan (by simp)
  rename_i b t hfil
  split at hscan
  · exact ⟨true, t, hscan⟩
  split at hscan
  · exact ⟨false, t, hscan⟩
  exact ⟨false, b :: t, hscan⟩

/-- A successful scan with no mantissa digits has mantissa zero. -/
lemma scan_mantissa_zero_of_mdigits_zero (s : List Nat) (n : ScanNum)
    (hscan : scanEndfFloat s = .ok (.num n)) (hmd : n.mdigits = 0) :
    n.mantissa = 0 := by
  obtain ⟨neg, t1, h1⟩ := scan_num_afterSign s n hscan
  obtain ⟨hm, hd⟩ := scanAfterSign_fields neg t1 n h1
  rw [hm]
  exact scanMant_mantissa_of_mdigits_zero t1 (hd ▸ hmd)

/-- Filtering the space bytes out of an all-space field leaves
nothing. -/
lemma filter_space_replicate (nn : Nat) :
    (List.replicate nn 32).filter (fun b => b != 32) = [] := by
  induction nn with
  | zero => rfl
  | succ k ih => simp [List.replicate_succ, ih]

/-- Fortran blank-is-zero: an all-space field of admissible length
parses as integer 0. -/
lemma parse_endf_integer_blank (nn : Nat) (h1 : 1 ≤ nn) (h2 : nn ≤ 11) :
    parse_endf_integer (List.replicate nn 32) = .ok 0 := by
  have e1 : ¬(List.replicate nn 32 = []) := by
    simp only [List.replicate_eq_nil_iff]
    omega
  have e2 : ¬(11 < (List.replicate nn 32).length) := by
    simp only [List.length_replicate]
    omega
  unfold parse_endf_integer
  rw [if_neg e1, if_neg e2, filter_space_replicate]

/-- An all-space field of admissible length scans as the blank case. -/
lemma scan_blank (nn : Nat) (h1 : 1 ≤ nn) (h2 : nn ≤ 11) :
    scanEndfFloat (List.replicate nn 32) = .ok .zero := by
  have e1 : ¬(List.replicate nn 32 = []) := by
    simp only [List.replicate_eq_nil_iff]
    omega
  have e2 : ¬(11 < (List.replicate nn 32).length) := by
    simp only [List.length_replicate]
    omega
  unfold scanEndfFloat
  rw [if_neg e1, if_neg e2, filter_space_replicate]

/-- Fortran blank-is-zero: an all-space field of admissible length
parses as float positive zero. -/
lemma parse_endf_float_blank (round : ℚ → ℚ) (nn : Nat)
    (h1 : 1 ≤ nn) (h2 : nn ≤ 11) :
    parse_endf_float round (List.replicate nn 32) = .ok ⟨false, 0⟩ := by
  unfold parse_endf_float
  rw [scan_blank nn h1 h2]

/-- A successful `mapME` produces one output per input. -/
lemma mapME_ok_length {α β : Type} (f : α → Except Unit β) (l : List α)
    (ys : List β) (h : mapME f l = .ok ys) : ys.length = l.length := by
  induction l generalizing ys with
  | nil =>
    unfold mapME at h
    rw [Except.ok.injEq] at h
    rw [← h]
    rfl
  | cons a t ih =>
    unfold mapME at h
    cases hf : f a with
    | error u => rw [hf] at h; exact absurd h (by simp)
    | ok b =>
      rw [hf] at h
      cases hm : mapME f t with
      | error u => rw [hm] at h; exact absurd h (by simp)
      | ok bs =>
        rw [hm] at h
        rw [Except.ok.injEq] at h
        rw [← h]
        simp [ih bs hm]

/-- No further INTG field fits before offset 66. -/
lemma intgOffsets_nil (nd ptr : Nat) (h : 66 < ptr + (nd + 1)) :
    intgOffsets nd ptr = [] := by
  unfold intgOffsets
  rw [Nat.div_eq_of_lt (by omega)]
  rfl

/-- One INTG field fits at `ptr`, the rest start at `ptr + (nd + 1)`. -/
lemma intgOffsets_cons (nd ptr : Nat) (h : ptr + (nd + 1) ≤ 66) :
    intgOffsets nd ptr = ptr :: intgOffsets nd (ptr + (nd + 1)) := by
  unfold intgOffsets
  have hdiv : (66 - ptr) / (nd + 1) = (66 - (ptr + (nd + 1))) / (nd + 1) + 1 := by
    have hsplit : 66 - ptr = (66 - (ptr + (nd + 1))) + (nd + 1) := by omega
    rw [hsplit, Nat.add_div_right _ (Nat.succ_pos nd)]
  rw [hdiv, List.range_succ_eq_map]
  simp only [List.map_cons, List.map_map]
  congr 1
  · omega
  · apply List.map_congr_left
    intro i _
    simp only [Function.comp_apply, Nat.succ_eq_add_one]
    ring

/-- The INTG value loop computes exactly the fields at the spec's
offsets (given 66 available bytes, so the unchecked indexing cannot
panic, and enough fuel). -/
lemma intgLoopF_eq_spec (buf : List Nat) (nd : Nat) (hlen : 66 ≤ buf.length) :
    ∀ fuel ptr, 66 ≤ ptr + fuel →
      intgLoopF buf nd fuel ptr =
        excToOutcome (mapME (fun p => parse_endf_integer ((buf.drop p).take (nd + 1)))
          (intgOffsets nd ptr)) := by
  intro fuel
  induction fuel with
  | zero =>
    intro ptr h
    rw [intgOffsets_nil nd ptr (by omega)]
    rfl
  | succ f ih =>
    intro ptr h
    by_cases hg : 66 < ptr + (nd + 1)
    · rw [intgOffsets_nil nd ptr hg]
      simp only [intgLoopF, if_pos hg]
      rfl
    · have hle : ptr + (nd + 1) ≤ 66 := by omega
      rw [intgOffsets_cons nd ptr hle]
      simp only [intgLoopF, if_neg hg,
        if_neg (by omega : ¬ buf.length < ptr + (nd + 1)), mapME]
      cases hp : parse_endf_integer ((buf.drop ptr).take (nd + 1)) with
      | error u => rfl
      | ok v =>
        rw [ih (ptr + (nd + 1)) (by omega)]
        cases hm : mapME (fun p => parse_endf_integer ((buf.drop p).take (nd + 1)))
            (intgOffsets nd (ptr + (nd + 1))) with
        | error u => rfl
        | ok vs => rfl

/-- `read_intg` on an in-range `ndigit` and a line of at least 66
bytes is exactly the spec-level INTG decoding. -/
lemma read_intg_eq_spec (nd : Nat) (buf : List Nat) (rest : Source)
    (h2 : 2 ≤ nd) (h6 : nd ≤ 6) (hlen : 66 ≤ buf.length) :
    read_intg nd (.ok buf :: rest) = excToOutcome (intgSpec nd buf) := by
  have hne : ¬ buf = [] := by
    intro h
    rw [h] at hlen
    simp at hlen
  have hs1 : sliceGet buf 0 5 = some (buf.take 5) := by
    unfold sliceGet
    rw [if_pos ⟨by omega, by omega⟩]
    rfl
  have hs2 : sliceGet buf 5 10 = some ((buf.drop 5).take 5) := by
    unfold sliceGet
    rw [if_pos ⟨by omega, by omega⟩]
  unfold read_intg intgSpec
  rw [if_neg (by omega)]
  dsimp only
  rw [if_neg hne]
  simp only [hs1, hs2]
  cases hp1 : parse_endf_integer (buf.take 5) with
  | error u => rfl
  | ok ii =>
    cases hp2 : parse_endf_integer ((buf.drop 5).take 5) with
    | error u => rfl
    | ok jj =>
      rw [intgLoopF_eq_spec buf nd hlen 66 _ (by omega)]
      cases hm : mapME (fun p => parse_endf_integer ((buf.drop p).take (nd + 1)))
          (intgOffsets nd (if nd ≤ 5 then 11 else 10)) with
      | error u => rfl
      | ok kij => rfl

/-- The INTG values of a successful spec-level decode are in bijection
with the field offsets. -/
lemma intgSpec_kij_length (nd : Nat) (buf : List Nat) (r : Intg)
    (h : intgSpec nd buf = .ok r) :
    r.kij.length = (intgOffsets nd (if nd ≤ 5 then 11 else 10)).length := by
  unfold intgSpec at h
  cases hp1 : parse_endf_integer (buf.take 5) with
  | error u => rw [hp1] at h; exact absurd h (by simp)
  | ok ii =>
    rw [hp1] at h
    cases hp2 : parse_endf_integer ((buf.drop 5).take 5) with
    | error u => rw [hp2] at h; exact absurd h (by simp)
    | ok jj =>
      rw [hp2] at h
      cases hm : mapME (fun p => parse_endf_integer ((buf.drop p).take (nd + 1)))
          (intgOffsets nd (if nd ≤ 5 then 11 else 10)) with
      | error u => rw [hm] at h; exact absurd h (by simp)
      | ok kij =>
        rw [hm, Except.ok.injEq] at h
        rw [← h]
        exact mapME_ok_length _ _ _ hm

/-- `parse_float` through a successfully scanned field at a 1-based
column. -/
lemma parse_float_col (round : ℚ → ℚ)
    (hround : ∀ q, DoubleRepresentable q → round q = q)
    (record : List Nat) (col : Nat) (fieldBytes : List Nat) (n : ScanNum)
    (hs : sliceGet record ((col - 1) * 11) (col * 11) = some fieldBytes)
    (hscan : scanEndfFloat fieldBytes = .ok (.num n))
    (hm : n.mantissa < 10 ^ 11) :
    parse_float round record col =
      .ok ⟨if n.mantissa = 0 then false else n.negative,
           round ((n.mantissa : ℚ) * (10 : ℚ) ^ n.exponent)⟩ := by
  unfold parse_float
  rw [hs]
  dsimp only
  rw [parse_endf_float_eq_round round hround fieldBytes n hscan hm]

/-- `parse_float` on an all-blank 11-byte field at a 1-based column. -/
lemma parse_float_col_blank (round : ℚ → ℚ) (record : List Nat) (col : Nat)
    (hs : sliceGet record ((col - 1) * 11) (col * 11) =
      some (List.replicate 11 32)) :
    parse_float round record col = .ok ⟨false, 0⟩ := by
  unfold parse_float
  rw [hs]
  dsimp only
  rw [parse_endf_float_blank round 11 (by norm_num) (by norm_num)]

/-- A zero take target stops a LIST data line immediately. -/
lemma lineFloats_zero (round : ℚ → ℚ) (buf : List Nat) (rem col : Nat) :
    lineFloats round buf rem col 0 = .ok [] := by
  cases rem <;> rfl

/-- One successful field extends a LIST data line decode. -/
lemma lineFloats_step (round : ℚ → ℚ) (buf : List Nat) (rem col need : Nat)
    (v : EndfFloat) (vs : List EndfFloat)
    (hv : parse_float round buf (col + 1) = .ok v)
    (hrec : lineFloats round buf rem (col + 1) need = .ok vs) :
    lineFloats round buf (rem + 1) col (need + 1) = .ok (v :: vs) := by
  unfold lineFloats
  rw [if_neg (Nat.succ_ne_zero need), hv]
  dsimp only
  rw [Nat.succ_sub_one, hrec]

/-- A satisfied count stops the LIST line loop. -/
lemma listLoop_zero (round : ℚ → ℚ) (src : Source) :
    listLoop round src 0 = .ok [] := by
  cases src with
  | nil => rfl
  | cons h t => cases h <;> rfl

/-- One data line extends the LIST line loop. -/
lemma listLoop_step (round : ℚ → ℚ) (buf : List Nat) (rest : Source)
    (need : Nat) (vs tail : List EndfFloat) (hbuf : ¬ buf = [])
    (hlf : lineFloats round buf 6 0 (need + 1) = .ok vs)
    (hrec : listLoop round rest (need + 1 - vs.length) = .ok tail) :
    listLoop round (.ok buf :: rest) (need + 1) = .ok (vs ++ tail) := by
  unfold listLoop
  rw [if_neg hbuf, hlf]
  dsimp only
  rw [hrec]

/-- `read_list` assembled from its header fields and collected
values. -/
lemma read_list_eval (round : ℚ → ℚ) (buf : List Nat) (rest : Source)
    (c1 c2 : EndfFloat) (l1 l2 n2 : Int) (npl : Nat) (b : List EndfFloat)
    (hbuf : ¬ buf = [])
    (h1 : parse_float round buf 1 = .ok c1)
    (h2 : parse_float round buf 2 = .ok c2)
    (h3 : parse_integer buf 3 = .ok l1)
    (h4 : parse_integer buf 4 = .ok l2)
    (h5 : parse_integer buf 5 = .ok (npl : Int))
    (h6 : parse_integer buf 6 = .ok n2)
    (hb : listLoop round rest npl = .ok b) :
    read_list round (.ok buf :: rest) = .ok ⟨c1, c2, l1, l2, npl, n2, b⟩ := by
  unfold read_list
  dsimp only
  rw [if_neg hbuf, h1]
  dsimp only
  rw [h2]
  dsimp only
  rw [h3]
  dsimp only
  rw [h4]
  dsimp only
  rw [h5]
  dsimp only
  rw [h6]
  dsimp only
  rw [if_neg (by exact_mod_cast Int.not_lt.mpr (Int.ofNat_nonneg npl))]
  rw [Int.toNat_natCast, hb]

/-- One is an exactly representable double. -/
lemma representable_one : DoubleRepresentable (1 : ℚ) :=
  ⟨1, 0, by norm_num, by norm_num, by norm_num, by simp⟩

/-!  The claim theorems. -/

/-- C1: every float field accepted by `parse_endf_float` whose mantissa
has at most 11 significant decimal digits decodes to the correctly
rounded double nearest the exact rational `mantissa * 10^exponent`
(with the scanned sign): when the combined decimal exponent has
absolute value at most 22 this is the direct power-of-ten-table path,
whose cast mantissa and table entry are exact so the single
multiplication or division rounds the exact value; for larger absolute
exponents the string-fallback path delegates to the standard library's
correctly rounding conversion. -/
theorem parse_endf_float_correctly_rounded
    (round : ℚ → ℚ) (hround : ∀ q, DoubleRepresentable q → round q = q)
    (s : List Nat) (n : ScanNum) (hscan : scanEndfFloat s = .ok (.num n))
    (hm : n.mantissa < 10 ^ 11) :
    parse_endf_float round s =
      .ok ⟨if n.mantissa = 0 then false else n.negative,
           round ((n.mantissa : ℚ) * (10 : ℚ) ^ n.exponent)⟩ :=
  parse_endf_float_eq_round round hround s n hscan hm

/-- C1 witness: the field `" 1.2345E+01"` scans to mantissa 12345 and
combined exponent -3, and parses (with the identity as a rounding
function fixing every representable rational) to exactly
`12345 * 10^-3`. -/
theorem parse_endf_float_correctly_rounded_witness :
    scanEndfFloat (strBytes (r" 1.2345E+01")) = .ok (.num ⟨false, 12345, -3, 5, 2⟩) ∧
    parse_endf_float id (strBytes (r" 1.2345E+01")) =
      .ok ⟨false, id ((12345 : ℚ) * (10 : ℚ) ^ (-3 : ℤ))⟩ := by
  refine ⟨by decide, ?_⟩
  have h := parse_endf_float_correctly_rounded id (fun _ _ => rfl)
    (strBytes (r" 1.2345E+01")) ⟨false, 12345, -3, 5, 2⟩ (by decide) (by decide)
  simpa using h

/-- C2: the reader panics instead of returning a typed error on
too-short lines: `read_text` slices `buf[..66]` out of a 2-byte line
`"A\n"`, and `read_intg` slices `buf[11..14]` out of a 10-byte line. -/
theorem read_text_short_line_panics :
    read_text [.ok (strBytes (r"A") ++ [10])] = .panic ∧
    read_intg 2 [.ok (List.replicate 10 32)] = .panic := by
  exact ⟨by decide, by decide⟩

/-- C3 counterexample: the field `"-0.0"` (zero mantissa with a minus
sign byte) parses to positive zero — sign bit clear — because the
zero fast-return at `float.rs` line 227 precedes sign application;
the claimed negative zero is not produced. -/
theorem parse_neg_zero_field_pos_zero :
    parse_endf_float id (strBytes (r"-0.0")) = .ok ⟨false, 0⟩ ∧
    parse_endf_float id (strBytes (r"-0.0")) ≠ .ok ⟨true, 0⟩ := by
  exact ⟨by decide, by decide⟩

/-- C3 (amended): whenever the scanned mantissa is zero,
`parse_endf_float` returns positive zero regardless of any sign byte:
the zero fast-return precedes sign application. -/
theorem parse_endf_float_zero_mantissa_pos_zero (round : ℚ → ℚ)
    (s : List Nat) (n : ScanNum) (hscan : scanEndfFloat s = .ok (.num n))
    (h0 : n.mantissa = 0) :
    parse_endf_float round s = .ok ⟨false, 0⟩ :=
  parse_zero_of_mantissa_zero round s n hscan h0

/-- C3 witness: `"-0.0"` scans with a minus sign and zero mantissa and
parses to positive zero. -/
theorem parse_endf_float_zero_mantissa_pos_zero_witness :
    scanEndfFloat (strBytes (r"-0.0")) = .ok (.num ⟨true, 0, -1, 2, 0⟩) ∧
    parse_endf_float id (strBytes (r"-0.0")) = .ok ⟨false, 0⟩ :=
  ⟨by decide, parse_endf_float_zero_mantissa_pos_zero id (strBytes (r"-0.0"))
    ⟨true, 0, -1, 2, 0⟩ (by decide) (by decide)⟩

/-- C4 counterexample: a 12-byte all-space slice is rejected by both
parsers (the length check precedes the blank-is-zero rule), refuting
the claim for "every length". -/
theorem blank_twelve_spaces_error :
    parse_endf_integer (List.replicate 12 32) = .error () ∧
    parse_endf_float id (List.replicate 12 32) = .error () := by
  exact ⟨by decide, by decide⟩

/-- C4 (amended): for all byte strings composed only of spaces of
length 1 to 11, `parse_endf_integer` returns 0 and `parse_endf_float`
returns positive zero, never an error. -/
theorem blank_field_parses_to_zero (round : ℚ → ℚ) (nn : Nat)
    (h1 : 1 ≤ nn) (h2 : nn ≤ 11) :
    parse_endf_integer (List.replicate nn 32) = .ok 0 ∧
    parse_endf_float round (List.replicate nn 32) = .ok ⟨false, 0⟩ :=
  ⟨parse_endf_integer_blank nn h1 h2, parse_endf_float_blank round nn h1 h2⟩

/-- C4 witness: the 11-space field parses to integer 0 and float 0.0. -/
theorem blank_field_parses_to_zero_witness :
    parse_endf_integer (List.replicate 11 32) = .ok 0 ∧
    parse_endf_float id (List.replicate 11 32) = .ok ⟨false, 0⟩ :=
  blank_field_parses_to_zero id 11 (by decide) (by decide)

/-- C5: for every `ndigit` in `[2, 6]` and every line of at least 66
bytes, `read_intg` decodes the two 5-byte header fields `ii` and `jj`
at the start of the line and then data values each `ndigit + 1` bytes
wide starting at byte offset 11 (`ndigit ≤ 5`) or 10 (`ndigit = 6`),
packed left to right until fewer than `ndigit + 1` bytes remain before
offset 66 — exactly the layout written down in `intgSpec`. -/
theorem read_intg_layout (nd : Nat) (buf : List Nat) (rest : Source)
    (h2 : 2 ≤ nd) (h6 : nd ≤ 6) (hlen : 66 ≤ buf.length) :
    read_intg nd (.ok buf :: rest) = excToOutcome (intgSpec nd buf) :=
  read_intg_eq_spec nd buf rest h2 h6 hlen

/-- C5 witness: instantiated at `ndigit = 2` on the all-blank 66-byte
line. -/
theorem read_intg_layout_witness :
    read_intg 2 [.ok (List.replicate 66 32)] =
      excToOutcome (intgSpec 2 (List.replicate 66 32)) :=
  read_intg_layout 2 (List.replicate 66 32) [] (by decide) (by decide) (by decide)

/-- C6: decoding the 80-column line
`" 1.23456789-1.23456789          1          2          3          412341212312345"`
as a continuation record with control numbers yields
`c1 = 1.23456789`, `c2 = -1.23456789` (each the correctly rounded
double of the exact rational `123456789 * 10^-8`, with the scanned
sign), `l1 = 1`, `l2 = 2`, `n1 = 3`, `n2 = 4`, `mat = 1234`,
`mf = 12`, `mt = 123`, `ns = some 12345`. -/
theorem cont_record_scenario (round : ℚ → ℚ)
    (hround : ∀ q, DoubleRepresentable q → round q = q) :
    parse_cont round contLine =
      .ok ⟨⟨false, round ((123456789 : ℚ) * (10 : ℚ) ^ (-8 : ℤ))⟩,
           ⟨true, round ((123456789 : ℚ) * (10 : ℚ) ^ (-8 : ℤ))⟩, 1, 2, 3, 4⟩ ∧
    parse_control_numbers contLine = .ok (1234, 12, 123, some 12345) := by
  constructor
  · have hf1 := parse_float_col round hround contLine 1
      (strBytes (r" 1.23456789")) ⟨false, 123456789, -8, 9, 0⟩
      (by decide) (by decide) (by decide)
    have hf2 := parse_float_col round hround contLine 2
      (strBytes (r"-1.23456789")) ⟨true, 123456789, -8, 9, 0⟩
      (by decide) (by decide) (by decide)
    have hi3 : parse_integer contLine 3 = .ok 1 := by decide
    have hi4 : parse_integer contLine 4 = .ok 2 := by decide
    have hi5 : parse_integer contLine 5 = .ok 3 := by decide
    have hi6 : parse_integer contLine 6 = .ok 4 := by decide
    simp only [] at hf1 hf2
    unfold parse_cont
    rw [hf1, hf2, hi3, hi4, hi5, hi6]
    norm_num
  · decide

/-- C6 witness: the scenario instantiated with the identity rounding
function. -/
theorem cont_record_scenario_witness :
    parse_cont id contLine =
      .ok ⟨⟨false, id ((123456789 : ℚ) * (10 : ℚ) ^ (-8 : ℤ))⟩,
           ⟨true, id ((123456789 : ℚ) * (10 : ℚ) ^ (-8 : ℤ))⟩, 1, 2, 3, 4⟩ ∧
    parse_control_numbers contLine = .ok (1234, 12, 123, some 12345) :=
  cont_record_scenario id (fun _ _ => rfl)

/-- C7: a LIST header declaring `npl = 3` followed by one data line
with three parseable floats in its first three 11-byte fields and
blanks in the remaining three yields a values sequence of exactly
length 3; the blank trailing fields are never read and contribute no
values. -/
theorem list_record_scenario (round : ℚ → ℚ)
    (hround : ∀ q, DoubleRepresentable q → round q = q) :
    read_list round [.ok listHeaderLine, .ok listDataLine] =
      .ok ⟨⟨false, 0⟩, ⟨false, 0⟩, 0, 0, 3, 0,
           [⟨false, 1⟩, ⟨false, 2⟩, ⟨false, 3⟩]⟩ := by
  have hv1 : parse_float round listDataLine 1 = .ok ⟨false, 1⟩ := by
    have h := parse_float_col round hround listDataLine 1
      (strBytes (r" 1.00000000")) ⟨false, 100000000, -8, 9, 0⟩
      (by decide) (by decide) (by decide)
    norm_num at h
    rw [h, hround 1 representable_one]
  have hv2 : parse_float round listDataLine 2 = .ok ⟨false, 2⟩ := by
    have h := parse_float_col round hround listDataLine 2
      (strBytes (r" 2.00000000")) ⟨false, 200000000, -8, 9, 0⟩
      (by decide) (by decide) (by decide)
    norm_num at h
    rw [h, hround 2 ⟨2, 0, by norm_num, by norm_num, by norm_num, by simp⟩]
  have hv3 : parse_float round listDataLine 3 = .ok ⟨false, 3⟩ := by
    have h := parse_float_col round hround listDataLine 3
      (strBytes (r" 3.00000000")) ⟨false, 300000000, -8, 9, 0⟩
      (by decide) (by decide) (by decide)
    norm_num at h
    rw [h, hround 3 ⟨3, 0, by norm_num, by norm_num, by norm_num, by simp⟩]
  have hlf : lineFloats round listDataLine 6 0 3 =
      .ok [⟨false, 1⟩, ⟨false, 2⟩, ⟨false, 3⟩] :=
    lineFloats_step round listDataLine 5 0 2 _ _ hv1
      (lineFloats_step round listDataLine 4 1 1 _ _ hv2
        (lineFloats_step round listDataLine 3 2 0 _ _ hv3
          (lineFloats_zero round listDataLine 3 3)))
  have hloop : listLoop round [.ok listDataLine] 3 =
      .ok [⟨false, 1⟩, ⟨false, 2⟩, ⟨false, 3⟩] := by
    have h := listLoop_step round listDataLine [] 2
      [⟨false, 1⟩, ⟨false, 2⟩, ⟨false, 3⟩] [] (by decide) hlf
      (listLoop_zero round [])
    simpa using h
  exact read_list_eval round listHeaderLine [.ok listDataLine]
    ⟨false, 0⟩ ⟨false, 0⟩ 0 0 0 3 [⟨false, 1⟩, ⟨false, 2⟩, ⟨false, 3⟩]
    (by decide)
    (parse_float_col_blank round listHeaderLine 1 (by decide))
    (parse_float_col_blank round listHeaderLine 2 (by decide))
    (by decide) (by decide) (by decide) (by decide) hloop

/-- C7 witness: the scenario instantiated with the identity rounding
function. -/
theorem list_record_scenario_witness :
    read_list id [.ok listHeaderLine, .ok listDataLine] =
      .ok ⟨⟨false, 0⟩, ⟨false, 0⟩, 0, 0, 3, 0,
           [⟨false, 1⟩, ⟨false, 2⟩, ⟨false, 3⟩]⟩ :=
  list_record_scenario id (fun _ _ => rfl)

/-- C8: a line pull that yields zero bytes makes `read_line` and every
record-reading operation return `EndfError::EndOfFile`, which is a
distinct constructor from the wrapped I/O failure, and is an error
rather than a zero-length success. -/
theorem reader_end_of_file_reported (round : ℚ → ℚ) (rest : Source) :
    read_line (.ok [] :: rest) = .error .endOfFile ∧
    read_line [] = .error .endOfFile ∧
    read_cont round (.ok [] :: rest) = .error .endOfFile ∧
    read_list round (.ok [] :: rest) = .error .endOfFile ∧
    read_tab1 round (.ok [] :: rest) = .error .endOfFile ∧
    read_tab2 round (.ok [] :: rest) = .error .endOfFile ∧
    read_text (.ok [] :: rest) = .fail .endOfFile ∧
    (∀ nd, 2 ≤ nd → nd ≤ 6 → read_intg nd (.ok [] :: rest) = .fail .endOfFile) ∧
    (∀ e, EndfError.endOfFile ≠ EndfError.ioFailure e) ∧
    (∀ buf, ¬ read_line (.ok [] :: rest) = .ok buf) := by
  refine ⟨rfl, rfl, rfl, rfl, rfl, rfl, rfl, ?_, ?_, ?_⟩
  · intro nd hn2 hn6
    unfold read_intg
    rw [if_neg (by omega)]
    rfl
  · intro e h
    exact EndfError.noConfusion h
  · intro buf h
    exact Except.noConfusion h

/-- C8 witness: end of file at `ndigit = 2` and distinctness from a
concrete I/O failure. -/
theorem reader_end_of_file_reported_witness :
    read_intg 2 [.ok []] = .fail .endOfFile ∧
    EndfError.endOfFile ≠ EndfError.ioFailure ⟨0⟩ :=
  ⟨(reader_end_of_file_reported id []).2.2.2.2.2.2.2.1 2 (by decide) (by decide),
   (reader_end_of_file_reported id []).2.2.2.2.2.2.2.2.1 ⟨0⟩⟩

/-- C9: every accepted float field with exponent digits but no
mantissa digits parses to `0.0` (the zero mantissa short-circuits
before the exponent is applied), not an error. -/
theorem parse_endf_float_exponent_only (round : ℚ → ℚ) (s : List Nat)
    (n : ScanNum) (hscan : scanEndfFloat s = .ok (.num n))
    (hmd : n.mdigits = 0) (_hed : 0 < n.edigits) :
    parse_endf_float round s = .ok ⟨false, 0⟩ :=
  parse_zero_of_mantissa_zero round s n hscan
    (scan_mantissa_zero_of_mdigits_zero s n hscan hmd)

/-- C9 witness: `"E12"` has two exponent digits, no mantissa digits,
and parses to `0.0`. -/
theorem parse_endf_float_exponent_only_witness :
    scanEndfFloat (strBytes (r"E12")) = .ok (.num ⟨false, 0, 12, 0, 2⟩) ∧
    parse_endf_float id (strBytes (r"E12")) = .ok ⟨false, 0⟩ :=
  ⟨by decide, parse_endf_float_exponent_only id (strBytes (r"E12"))
    ⟨false, 0, 12, 0, 2⟩ (by decide) (by decide) (by decide)⟩

/-- C10: on every line of at least 66 bytes, a successful `read_intg`
returns a values vector whose length depends on `ndigit` alone
(18, 13, 11, 9, 8 for `ndigit` = 2..6), and the all-blank line decodes
to that many zeros — blank value fields are included, never skipped. -/
theorem read_intg_value_count (nd : Nat) (buf : List Nat) (rest : Source)
    (r : Intg) (h2 : 2 ≤ nd) (h6 : nd ≤ 6) (hlen : 66 ≤ buf.length)
    (hok : read_intg nd (.ok buf :: rest) = .ok r) :
    r.kij.length = intgCount nd ∧
    read_intg nd (.ok (List.replicate 66 32) :: rest) =
      .ok ⟨0, 0, List.replicate (intgCount nd) 0⟩ := by
  constructor
  · have heq := read_intg_eq_spec nd buf rest h2 h6 hlen
    rw [hok] at heq
    cases hsp : intgSpec nd buf with
    | error u =>
      rw [hsp] at heq
      exact absurd heq (by simp [excToOutcome])
    | ok x =>
      rw [hsp] at heq
      simp only [excToOutcome, Outcome.ok.injEq] at heq
      have hr : intgSpec nd buf = .ok r := by rw [hsp, heq]
      have hlenk := intgSpec_kij_length nd buf r hr
      rw [hlenk]
      interval_cases nd <;> decide
  · rw [read_intg_eq_spec nd (List.replicate 66 32) rest h2 h6 (by decide)]
    interval_cases nd <;> decide

/-- C10 witness: at `ndigit = 2` the all-blank 66-byte line decodes to
18 zeros. -/
theorem read_intg_value_count_witness :
    (⟨0, 0, List.replicate 18 0⟩ : Intg).kij.length = intgCount 2 ∧
    read_intg 2 (.ok (List.replicate 66 32) :: []) =
      .ok ⟨0, 0, List.replicate (intgCount 2) 0⟩ :=
  read_intg_value_count 2 (List.replicate 66 32) [] ⟨0, 0, List.replicate 18 0⟩
    (by decide) (by decide) (by decide) (by decide)

end Nkl
